import Mathlib

/-!
Shallow embedding of the skogul metadata/data transformer
(src/transformer/metadata.go) and the flatten primitive it uses.

Go `map[string]interface{}` values are modelled as association lists of
`String × Value`; assignment replaces the first binding of the key (later
duplicates are unobservable through lookup), deletion removes every binding
of the key, and lookup returns the first binding.  A nil Go map is modelled
as the empty list: every operation in the source treats a nil map and an
empty map identically (reads on a nil map yield the zero value, and each
write is preceded by a `make` guard), so the distinction is not observable.
Go map iteration order is unspecified; the embedding iterates association
lists front to back, a deterministic refinement that agrees with the source
whenever the outcome is order-independent (which it is at every input our
theorems evaluate).
-/

namespace Skogul

/-- The dynamic value domain of metric fields: JSON-shaped data
(null, booleans, numbers, strings, arrays, nested objects). -/
inductive Value where
  | null : Value
  | bool : Bool → Value
  | int : Int → Value
  | float : Int → Value
  | str : String → Value
  | arr : List Value → Value
  | map : List (String × Value) → Value

/-- Association-list model of `map[string]interface{}`. -/
def SMap : Type := List (String × Value)

instance : Inhabited SMap := ⟨([] : List (String × Value))⟩

/-- Lookup: `m[k]` with comma-ok presence semantics (`none` = absent). -/
def SMap.get : SMap → String → Option Value
  | [], _ => none
  | (k', v) :: rest, k => if k' = k then some v else SMap.get rest k

/-- Go map assignment `m[k] = v`: replace the first binding or append. -/
def SMap.set : SMap → String → Value → SMap
  | [], k, v => [(k, v)]
  | (k', v') :: rest, k, v =>
    if k' = k then (k, v) :: rest else (k', v') :: SMap.set rest k v

/-- Go `delete(m, k)`: remove the binding(s) of `k`. -/
def SMap.erase : SMap → String → SMap
  | [], _ => []
  | (k', v) :: rest, k =>
    if k' = k then SMap.erase rest k else (k', v) :: SMap.erase rest k

/-- `m[k] == nil` in Go: true when the key is absent or bound to null. -/
def SMap.isNil (m : SMap) (k : String) : Bool :=
  match m.get k with
  | none => true
  | some .null => true
  | some _ => false

/-- A metric: metadata map plus data map (the timestamp plays no role in
the transformer and is omitted). -/
structure Metric where
  Metadata : SMap
  Data : SMap

/-- Modelled from the spec: a Container (the skogul root package is not in
src/) has an optional template metric and an ordered list of metrics. -/
structure Container where
  Template : Option Metric
  Metrics : List Metric

/-- SourceDestination rule: source key, destination key, keep flag. -/
structure SourceDestination where
  Source : String
  Destination : String
  Keep : Bool

/-- Configuration of the Metadata transformer. -/
structure Metadata where
  Set : List (String × Value) := []
  Require : List String := []
  ExtractFromData : List String := []
  CopyFromData : List SourceDestination := []
  Remove : List String := []
  Ban : List String := []
  Flatten : List (List String) := []
  FlattenSeparator : String := ""
  Rename : List SourceDestination := []
  KeepOriginal : Bool := false

/-- Configuration of the Data transformer. -/
structure Data where
  Set : List (String × Value) := []
  Require : List String := []
  Flatten : List (List String) := []
  FlattenSeparator : String := ""
  Remove : List String := []
  Ban : List String := []
  Rename : List SourceDestination := []
  KeepOriginal : Bool := false

/-- Modelled from the spec: `skogul.ExtractNestedObject(m, path)` (defined
in the skogul root package, absent from src/) resolves the parent object of
the last path element, descending `path[0..k-1]`; a missing or non-mapping
intermediate is an error (the caller then no-ops). -/
def ExtractNestedObject (m : SMap) : List String → Except String SMap
  | [] => .error "empty path"
  | [_] => .ok m
  | p :: rest =>
    match m.get p with
    | some (.map inner) => ExtractNestedObject inner rest
    | _ => .error "unable to extract nested object"

/-- The write loop of `flattenStructure`: for each `(key, val)` of the
collapsed object, assign `tm[prefixPath ++ sep ++ key] = val`, and (when
`KeepOriginal` is false) delete `tm[prefixPath]` after each write. -/
def writeFlat (prefixPath sep : String) (keepOriginal : Bool)
    (nestedObj : SMap) (tm : SMap) : SMap :=
  nestedObj.foldl
    (fun acc kv =>
      let acc := acc.set (prefixPath ++ sep ++ kv.1) kv.2
      if keepOriginal then acc else acc.erase prefixPath)
    tm

/-- The array branch of `flattenStructure`: build the intermediate object
from an array, joining each element index with the element's own keys. -/
def arrToObj (sep : String) (xs : List Value) : SMap :=
  xs.enum.foldl
    (fun acc iv =>
      match iv.2 with
      | .map o => o.foldl (fun a kv => a.set (toString iv.1 ++ sep ++ kv.1) kv.2) acc
      | v => acc.set (toString iv.1) v)
    []

/-- `flattenStructure` from src/transformer/metadata.go, acting on the
target map selected by the caller (the source threads `metric` plus an
`isData` flag; both branches run the identical code on the selected map).
An error leaves the map unchanged, exactly as in the source, where every
`return err` happens before any write.  Go would panic on an empty path
(index out of range); that case is modelled as an error and is never
exercised here. -/
def flattenStructure (nestedPath : List String) (separator : String)
    (keepOriginal : Bool) (tm : SMap) : Except String SMap :=
  match nestedPath with
  | [] => .error "empty path"
  | p0 :: rest =>
    let nestedObjectPath :=
      if separator ≠ "drop" ∧ rest ≠ [] then
        rest.foldl (fun acc p => acc ++ separator ++ p) p0
      else p0
    let sep := if separator = "drop" then "" else separator
    let nestedObjectPath := if separator = "drop" then "" else nestedObjectPath
    match ExtractNestedObject tm (p0 :: rest) with
    | .error e => .error e
    | .ok obj =>
      match obj.get ((p0 :: rest).getLastD "") with
      | some (.map nestedObj) =>
        .ok (writeFlat nestedObjectPath sep keepOriginal nestedObj tm)
      | some (.arr xs) =>
        .ok (writeFlat nestedObjectPath sep keepOriginal (arrToObj sep xs) tm)
      | _ => .error "failed to cast to array"

/-- The `Set` rule: unconditional assignments, in rule order. -/
def setFold (rules : List (String × Value)) (m : SMap) : SMap :=
  rules.foldl (fun acc kv => acc.set kv.1 kv.2) m

/-- The `Require` rule: first listed key that is absent or null yields the
error the source returns. -/
def requireCheck (what : String) (rules : List String) (m : SMap) : Option String :=
  match rules with
  | [] => none
  | k :: rest =>
    if m.isNil k then some ("missing required " ++ what ++ " field " ++ k)
    else requireCheck what rest m

/-- The `ExtractFromData` rule: move each listed key from data to metadata. -/
def extractFold (rules : List String) (md dt : SMap) : SMap × SMap :=
  match rules with
  | [] => (md, dt)
  | k :: rest =>
    match dt.get k with
    | none => extractFold rest md dt
    | some v => extractFold rest (md.set k v) (dt.erase k)

/-- The `CopyFromData` rule: copy (or move, when `Keep` is false) each
source key from data to metadata; an empty destination defaults to the
source name. -/
def copyFold (rules : List SourceDestination) (md dt : SMap) : SMap × SMap :=
  match rules with
  | [] => (md, dt)
  | cpy :: rest =>
    match dt.get cpy.Source with
    | none => copyFold rest md dt
    | some v =>
      let dest := if cpy.Destination = "" then cpy.Source else cpy.Destination
      copyFold rest (md.set dest v) (if cpy.Keep then dt else dt.erase cpy.Source)

/-- The `Remove` rule: delete the listed keys. -/
def removeFold (rules : List String) (m : SMap) : SMap :=
  rules.foldl (fun acc k => acc.erase k) m

/-- The `Ban` rule: first listed key present with a non-null value yields
the error the source returns. -/
def banCheck (what : String) (rules : List String) (m : SMap) : Option String :=
  match rules with
  | [] => none
  | k :: rest =>
    if m.isNil k then banCheck what rest m
    else some ("banned " ++ what ++ " field `" ++ k ++ "' present")

/-- The `Rename` rule: when the source key is present (even bound to null),
assign its value to the destination key — no defaulting of an empty
destination — and delete the source unless `Keep` is set. -/
def renameFold (rules : List SourceDestination) (m : SMap) : SMap :=
  match rules with
  | [] => m
  | r :: rest =>
    match m.get r.Source with
    | none => renameFold rest m
    | some v =>
      renameFold rest (if r.Keep then m.set r.Destination v
                       else (m.set r.Destination v).erase r.Source)

/-- The `Flatten` rule: apply `flattenStructure` per configured path; a
returned error is discarded (`_ = flattenStructure(...)` in the source)
and leaves the map as it was. -/
def flattenFold (paths : List (List String)) (separator : String)
    (keepOriginal : Bool) (m : SMap) : SMap :=
  paths.foldl
    (fun acc p =>
      match flattenStructure p separator keepOriginal acc with
      | .ok acc' => acc'
      | .error _ => acc)
    m

/-- Per-metric body of `Metadata.Transform`, in source order: Set, Require,
ExtractFromData, CopyFromData, Remove, Ban, Rename, Flatten.  A failing
check returns immediately (the metric keeps the mutations made so far),
mirroring the in-place `return fmt.Errorf(...)` of the source. -/
def Metadata.transformMetric (meta : Metadata) (m : Metric) : Metric × Option String :=
  let md := setFold meta.Set m.Metadata
  match requireCheck "metadata" meta.Require md with
  | some e => (⟨md, m.Data⟩, some e)
  | none =>
    let ex := extractFold meta.ExtractFromData md m.Data
    let cp := copyFold meta.CopyFromData ex.1 ex.2
    let md := removeFold meta.Remove cp.1
    match banCheck "metadata" meta.Ban md with
    | some e => (⟨md, cp.2⟩, some e)
    | none =>
      let md := renameFold meta.Rename md
      let md := flattenFold meta.Flatten meta.FlattenSeparator meta.KeepOriginal md
      (⟨md, cp.2⟩, none)

/-- The metric loop of `Metadata.Transform`: an error aborts the loop,
leaving the remaining metrics untouched. -/
def Metadata.transformMetrics (meta : Metadata) : List Metric → List Metric × Option String
  | [] => ([], none)
  | m :: rest =>
    match meta.transformMetric m with
    | (m', some e) => (m' :: rest, some e)
    | (m', none) =>
      let (rest', e) := meta.transformMetrics rest
      (m' :: rest', e)

/-- `Metadata.Transform` on a container.  The method's receiver is threaded
through as the first component of the result to record its final state: the
source never assigns through `meta` (the `cpy.Destination` defaulting
mutates the loop's copy of the rule), so the receiver comes back unchanged. -/
def Metadata.Transform (meta : Metadata) (c : Container) :
    Metadata × Container × Option String :=
  match meta.transformMetrics c.Metrics with
  | (ms, e) => (meta, ⟨c.Template, ms⟩, e)

/-- `Metadata.Deprecated`: the deprecation gate for `ExtractFromData`. -/
def Metadata.Deprecated (meta : Metadata) : Option String :=
  if meta.ExtractFromData ≠ [] then
    some "ExtractFromData is replaced by CopyFromData. ExtractFromData will be removed in future versions."
  else none

/-- Per-metric body of `Data.Transform`, in source order: Set, Flatten,
Require, Remove, Ban, Rename.  Only the data map is touched. -/
def Data.transformMetric (data : Data) (m : Metric) : Metric × Option String :=
  let dt := setFold data.Set m.Data
  let dt := flattenFold data.Flatten data.FlattenSeparator data.KeepOriginal dt
  match requireCheck "data" data.Require dt with
  | some e => (⟨m.Metadata, dt⟩, some e)
  | none =>
    let dt := removeFold data.Remove dt
    match banCheck "data" data.Ban dt with
    | some e => (⟨m.Metadata, dt⟩, some e)
    | none =>
      let dt := renameFold data.Rename dt
      (⟨m.Metadata, dt⟩, none)

/-- The metric loop of `Data.Transform`. -/
def Data.transformMetrics (data : Data) : List Metric → List Metric × Option String
  | [] => ([], none)
  | m :: rest =>
    match data.transformMetric m with
    | (m', some e) => (m' :: rest, some e)
    | (m', none) =>
      let (rest', e) := data.transformMetrics rest
      (m' :: rest', e)

/-- `Data.Transform` on a container.  The source first mutates its receiver:
`data.FlattenSeparator = "__"` when the field is empty; the updated receiver
is the first component of the result. -/
def Data.Transform (data : Data) (c : Container) :
    Data × Container × Option String :=
  let data :=
    if data.FlattenSeparator = "" then { data with FlattenSeparator := "__" } else data
  match data.transformMetrics c.Metrics with
  | (ms, e) => (data, ⟨c.Template, ms⟩, e)

/-- The metadata map of a metric at the point where the `Require` rules of
the Metadata transformer are checked: after `Set`. -/
def Metadata.mdAfterSet (meta : Metadata) (m : Metric) : SMap :=
  setFold meta.Set m.Metadata

/-- The metadata map of a metric at the point where the `Ban` rules of the
Metadata transformer are checked: after `Set`, `ExtractFromData`,
`CopyFromData` and `Remove`. -/
def Metadata.mdAfterRemove (meta : Metadata) (m : Metric) : SMap :=
  removeFold meta.Remove
    (copyFold meta.CopyFromData
      (extractFold meta.ExtractFromData (meta.mdAfterSet m) m.Data).1
      (extractFold meta.ExtractFromData (meta.mdAfterSet m) m.Data).2).1

/-- The receiver of `Data.Transform` after its separator defaulting. -/
def Data.defaulted (d : Data) : Data :=
  if d.FlattenSeparator = "" then { d with FlattenSeparator := "__" } else d

/-- The data map of a metric at the point where the `Require` rules of the
Data transformer are checked: after `Set` and `Flatten`. -/
def Data.dtAfterFlatten (d : Data) (m : Metric) : SMap :=
  flattenFold d.Flatten d.FlattenSeparator d.KeepOriginal (setFold d.Set m.Data)

/-- The data map of a metric at the point where the `Ban` rules of the Data
transformer are checked: after `Set`, `Flatten` and `Remove`. -/
def Data.dtAfterRemove (d : Data) (m : Metric) : SMap :=
  removeFold d.Remove (d.dtAfterFlatten m)

/-! ### Lookup lemmas for the map model -/

theorem SMap.get_set_self (m : SMap) (k : String) (v : Value) :
    (m.set k v).get k = some v := by
  induction m with
  | nil => simp [SMap.set, SMap.get]
  | cons kv rest ih =>
    by_cases h : kv.1 = k
    · simp [SMap.set, SMap.get, h]
    · simp [SMap.set, SMap.get, h, ih]

theorem SMap.get_set_ne (m : SMap) (k k' : String) (v : Value) (h : k' ≠ k) :
    (m.set k v).get k' = m.get k' := by
  induction m with
  | nil => simp [SMap.set, SMap.get, Ne.symm h]
  | cons kv rest ih =>
    by_cases hk : kv.1 = k
    · subst hk
      simp [SMap.set, SMap.get, Ne.symm h]
    · by_cases hk' : kv.1 = k'
      · simp [SMap.set, SMap.get, hk, hk', h]
      · simp [SMap.set, SMap.get, hk, hk', ih]

theorem SMap.get_erase_self (m : SMap) (k : String) :
    (m.erase k).get k = none := by
  induction m with
  | nil => simp [SMap.erase, SMap.get]
  | cons kv rest ih =>
    by_cases h : kv.1 = k
    · simp [SMap.erase, SMap.get, h, ih]
    · simp [SMap.erase, SMap.get, h, ih]

theorem SMap.get_erase_ne (m : SMap) (k k' : String) (h : k' ≠ k) :
    (m.erase k).get k' = m.get k' := by
  induction m with
  | nil => simp [SMap.erase, SMap.get]
  | cons kv rest ih =>
    by_cases hk : kv.1 = k
    · subst hk
      simp [SMap.erase, SMap.get, Ne.symm h, ih]
    · by_cases hk' : kv.1 = k'
      · simp [SMap.erase, SMap.get, hk, hk', h]
      · simp [SMap.erase, SMap.get, hk, hk', ih]

/-! ### Pure-pipeline lemmas: with no `Require` and no `Ban` rules, both
transformers succeed and act metric by metric. -/

theorem Metadata.transformMetric_err_eq_none (meta : Metadata) (m : Metric)
    (h1 : meta.Require = []) (h2 : meta.Ban = []) :
    (meta.transformMetric m).2 = none := by
  simp only [Metadata.transformMetric, h1, h2, requireCheck, banCheck]

theorem Metadata.transformMetrics_eq_map (meta : Metadata)
    (h : ∀ m, (meta.transformMetric m).2 = none) (ms : List Metric) :
    meta.transformMetrics ms = (ms.map (fun m => (meta.transformMetric m).1), none) := by
  induction ms with
  | nil => simp [Metadata.transformMetrics]
  | cons m rest ih =>
    have hm := h m
    rw [Metadata.transformMetrics]
    cases hmt : meta.transformMetric m with
    | mk m' e =>
      rw [hmt] at hm
      simp at hm
      subst hm
      simp [ih, hmt]

theorem Data.transformMetricErrNone (data : Data) (m : Metric)
    (h1 : data.Require = []) (h2 : data.Ban = []) :
    (data.transformMetric m).2 = none := by
  simp only [Data.transformMetric, h1, h2, requireCheck, banCheck]

theorem Data.transformMetricsMapEq (data : Data)
    (h : ∀ m, (data.transformMetric m).2 = none) (ms : List Metric) :
    data.transformMetrics ms = (ms.map (fun m => (data.transformMetric m).1), none) := by
  induction ms with
  | nil => simp [Data.transformMetrics]
  | cons m rest ih =>
    have hm := h m
    rw [Data.transformMetrics]
    cases hmt : data.transformMetric m with
    | mk m' e =>
      rw [hmt] at hm
      simp at hm
      subst hm
      simp [ih, hmt]

/-! ### Characterizations of the Go nil-value test -/

theorem SMap.isNil_eq_false_iff (m : SMap) (k : String) :
    m.isNil k = false ↔ ∃ v, m.get k = some v ∧ v ≠ Value.null := by
  unfold SMap.isNil
  cases hg : m.get k with
  | none => simp
  | some v => cases v <;> simp

theorem SMap.isNil_eq_true_iff (m : SMap) (k : String) :
    m.isNil k = true ↔ m.get k = none ∨ m.get k = some Value.null := by
  unfold SMap.isNil
  cases hg : m.get k with
  | none => simp
  | some v => cases v <;> simp

/-- C3: For every metric whose Data equals `{a: {b: 1, c: 2}}`,
`Data.Transform` with `Flatten = [["a"]]`, `FlattenSeparator` unset (which
defaults to `"__"`) and `KeepOriginal = false` produces Data containing
`a__b = 1` and `a__c = 2` with the key `a` removed. -/
theorem C3_flatten_default_separator (md : SMap) :
    (Data.Transform { Flatten := [["a"]] }
        ⟨none, [⟨md, [("a", .map [("b", .int 1), ("c", .int 2)])]⟩]⟩).2.2 = none ∧
    (Data.Transform { Flatten := [["a"]] }
        ⟨none, [⟨md, [("a", .map [("b", .int 1), ("c", .int 2)])]⟩]⟩).2.1.Metrics =
      [⟨md, [("a__b", .int 1), ("a__c", .int 2)]⟩] ∧
    (SMap.get [("a__b", Value.int 1), ("a__c", Value.int 2)] "a__b" = some (.int 1) ∧
     SMap.get [("a__b", Value.int 1), ("a__c", Value.int 2)] "a__c" = some (.int 2) ∧
     SMap.get [("a__b", Value.int 1), ("a__c", Value.int 2)] "a" = none) :=
  ⟨rfl, rfl, rfl, rfl, rfl⟩

/-- C4 counterexample: flattening `{a: [{x: 1}, {y: 2}]}` with path `["a"]`
and separator `"_"` does NOT yield the keys `0_x` and `1_y`: the result is
`{a_0_x: 1, a_1_y: 2}`, and the claimed keys are absent. -/
theorem C4_counterexample :
    flattenStructure ["a"] "_" false
        [("a", .arr [.map [("x", .int 1)], .map [("y", .int 2)]])] =
      .ok [("a_0_x", .int 1), ("a_1_y", .int 2)] ∧
    SMap.get [("a_0_x", Value.int 1), ("a_1_y", Value.int 2)] "0_x" = none ∧
    SMap.get [("a_0_x", Value.int 1), ("a_1_y", Value.int 2)] "1_y" = none :=
  ⟨rfl, rfl, rfl⟩

/-- C4 (amended): flattening `{a: [{x: 1}, {y: 2}]}` with path `["a"]` and
separator `"_"` yields the keys `a_0_x` and `a_1_y`: the array index is
joined with each element's keys, and the joined key is then prefixed with
the path `a` and the separator. -/
theorem C4_array_flatten_amended :
    flattenStructure ["a"] "_" false
        [("a", .arr [.map [("x", .int 1)], .map [("y", .int 2)]])] =
      .ok [("a_0_x", .int 1), ("a_1_y", .int 2)] ∧
    SMap.get [("a_0_x", Value.int 1), ("a_1_y", Value.int 2)] "a_0_x" = some (.int 1) ∧
    SMap.get [("a_0_x", Value.int 1), ("a_1_y", Value.int 2)] "a_1_y" = some (.int 2) :=
  ⟨rfl, rfl, rfl⟩

/-- C5 counterexample: flattening `{a: {b: 1, c: 2}}` with path `["a"]`,
separator `"drop"` and `keepOriginal = false` does NOT yield `{b: 1, c: 2}`:
the children land at top level, but the original key `a` is still present
(the delete targets the emptied prefix `""`, not `a`). -/
theorem C5_counterexample :
    flattenStructure ["a"] "drop" false
        [("a", .map [("b", .int 1), ("c", .int 2)])] =
      .ok [("a", .map [("b", .int 1), ("c", .int 2)]), ("b", .int 1), ("c", .int 2)] ∧
    SMap.get [("a", Value.map [("b", Value.int 1), ("c", Value.int 2)]),
      ("b", Value.int 1), ("c", Value.int 2)] "a" ≠ none :=
  ⟨rfl, by simp [SMap.get]⟩

/-- C5 (amended): flattening `{a: {b: 1, c: 2}}` with path `["a"]`,
separator `"drop"` and `keepOriginal = false` writes the children `b = 1`
and `c = 2` at top level without any prefix, but the original nested key
`a` remains present: under `"drop"` the prefix is reset to `""`, so the
`keepOriginal = false` delete removes the key `""` instead of `a`. -/
theorem C5_drop_flatten_amended :
    flattenStructure ["a"] "drop" false
        [("a", .map [("b", .int 1), ("c", .int 2)])] =
      .ok [("a", .map [("b", .int 1), ("c", .int 2)]), ("b", .int 1), ("c", .int 2)] ∧
    SMap.get [("a", Value.map [("b", Value.int 1), ("c", Value.int 2)]),
      ("b", Value.int 1), ("c", Value.int 2)] "b" = some (.int 1) ∧
    SMap.get [("a", Value.map [("b", Value.int 1), ("c", Value.int 2)]),
      ("b", Value.int 1), ("c", Value.int 2)] "c" = some (.int 2) ∧
    SMap.get [("a", Value.map [("b", Value.int 1), ("c", Value.int 2)]),
      ("b", Value.int 1), ("c", Value.int 2)] "a" =
      some (.map [("b", .int 1), ("c", .int 2)]) :=
  ⟨rfl, rfl, rfl, rfl⟩

/-! ### Component lemmas for the container-level transforms -/

theorem Metadata.Transform_metrics (meta : Metadata) (c : Container) :
    (Metadata.Transform meta c).2.1.Metrics = (meta.transformMetrics c.Metrics).1 := rfl

theorem Metadata.Transform_err (meta : Metadata) (c : Container) :
    (Metadata.Transform meta c).2.2 = (meta.transformMetrics c.Metrics).2 := rfl

/-- With only `Require = [k]` configured, the per-metric body is the bare
nil-check. -/
theorem Metadata.transformMetric_require (k : String) (m : Metric) :
    Metadata.transformMetric { Require := [k] } m =
      if m.Metadata.isNil k
      then (m, some ("missing required metadata field " ++ k))
      else (m, none) := by
  by_cases h : m.Metadata.isNil k <;>
    simp [Metadata.transformMetric, requireCheck, setFold, extractFold, copyFold,
      removeFold, banCheck, renameFold, flattenFold, h]

/-- With only `Ban = [k]` configured, the per-metric body is the bare
non-nil check. -/
theorem Metadata.transformMetric_ban (k : String) (m : Metric) :
    Metadata.transformMetric { Ban := [k] } m =
      if m.Metadata.isNil k
      then (m, none)
      else (m, some ("banned metadata field `" ++ k ++ "' present")) := by
  by_cases h : m.Metadata.isNil k <;>
    simp [Metadata.transformMetric, requireCheck, setFold, extractFold, copyFold,
      removeFold, banCheck, renameFold, flattenFold, h]

/-- Unfolding of the metric loop on a cons cell, with the tail expressed
through projections. -/
theorem Metadata.transformMetrics_cons (meta : Metadata) (m : Metric) (rest : List Metric) :
    meta.transformMetrics (m :: rest) =
      match meta.transformMetric m with
      | (m', some e) => (m' :: rest, some e)
      | (m', none) =>
        (m' :: (meta.transformMetrics rest).1, (meta.transformMetrics rest).2) := by
  rw [Metadata.transformMetrics]

theorem Metadata.require_only_metrics (k : String) (ms : List Metric)
    (h : (Metadata.transformMetrics { Require := [k] } ms).2 = none) :
    ∀ m ∈ (Metadata.transformMetrics { Require := [k] } ms).1,
      m.Metadata.isNil k = false := by
  induction ms with
  | nil => intro m hm; simp [Metadata.transformMetrics] at hm
  | cons m rest ih =>
    rw [Metadata.transformMetrics_cons, Metadata.transformMetric_require] at h ⊢
    by_cases hm : m.Metadata.isNil k
    · rw [if_pos hm] at h
      exact absurd h (by simp)
    · rw [if_neg hm] at h ⊢
      dsimp only at h ⊢
      intro m' hm'
      rcases List.mem_cons.mp hm' with rfl | hmem
      · simpa using hm
      · exact ih h m' hmem

theorem Metadata.ban_only_metrics (k : String) (ms : List Metric)
    (h : (Metadata.transformMetrics { Ban := [k] } ms).2 = none) :
    ∀ m ∈ (Metadata.transformMetrics { Ban := [k] } ms).1,
      m.Metadata.isNil k = true := by
  induction ms with
  | nil => intro m hm; simp [Metadata.transformMetrics] at hm
  | cons m rest ih =>
    rw [Metadata.transformMetrics_cons, Metadata.transformMetric_ban] at h ⊢
    by_cases hm : m.Metadata.isNil k
    · rw [if_pos hm] at h ⊢
      dsimp only at h ⊢
      intro m' hm'
      rcases List.mem_cons.mp hm' with rfl | hmem
      · exact hm
      · exact ih h m' hmem
    · rw [if_neg hm] at h
      exact absurd h (by simp)

/-- C1 counterexample: `Metadata.Transform` with `Ban = ["k"]` succeeds on a
container whose metric carries `Metadata["k"] = null`, yet `"k"` is still
present in the metric's metadata afterwards — the claim's parenthetical "Ban
fails with an error if any listed key is present" does not hold for a key
bound to null. -/
theorem C1_counterexample :
    Metadata.Transform { Ban := ["k"] } ⟨none, [⟨[("k", Value.null)], []⟩]⟩ =
      ({ Ban := ["k"] }, ⟨none, [⟨[("k", Value.null)], []⟩]⟩, none) ∧
    SMap.get [("k", Value.null)] "k" ≠ none :=
  ⟨rfl, by simp [SMap.get]⟩

/-- C1 (amended): if `Metadata.Transform` with `Require = [k]` (and no other
rules) succeeds, every metric in the resulting container has `Metadata[k]`
present and non-null; if it succeeds with `Ban = [k]` (and no other rules),
every metric's `Metadata[k]` is absent or bound to null — Ban fails exactly
when a listed key is present with a non-null value, so a null-valued key
survives a successful Ban. -/
theorem C1_require_ban_amended (k : String) (c₁ c₂ : Container)
    (h₁ : (Metadata.Transform { Require := [k] } c₁).2.2 = none)
    (h₂ : (Metadata.Transform { Ban := [k] } c₂).2.2 = none) :
    (∀ m ∈ (Metadata.Transform { Require := [k] } c₁).2.1.Metrics,
        ∃ v, SMap.get m.Metadata k = some v ∧ v ≠ Value.null) ∧
    (∀ m ∈ (Metadata.Transform { Ban := [k] } c₂).2.1.Metrics,
        SMap.get m.Metadata k = none ∨ SMap.get m.Metadata k = some Value.null) := by
  rw [Metadata.Transform_err] at h₁ h₂
  constructor
  · intro m hm
    rw [Metadata.Transform_metrics] at hm
    have := Metadata.require_only_metrics k c₁.Metrics h₁ m hm
    exact (SMap.isNil_eq_false_iff m.Metadata k).mp this
  · intro m hm
    rw [Metadata.Transform_metrics] at hm
    have := Metadata.ban_only_metrics k c₂.Metrics h₂ m hm
    exact (SMap.isNil_eq_true_iff m.Metadata k).mp this

/-- C1 witness: at `k = "k"`, a metric with `Metadata = {k: 1}` passes
`Require = ["k"]` and a metric with empty metadata passes `Ban = ["k"]`. -/
theorem C1_require_ban_amended_witness :
    SMap.get ([] : SMap) "k" = none ∨ SMap.get ([] : SMap) "k" = some Value.null :=
  (C1_require_ban_amended "k" ⟨none, [⟨[("k", Value.int 1)], []⟩]⟩
      ⟨none, [⟨[], []⟩]⟩ rfl rfl).2 ⟨[], []⟩ (List.Mem.head _)

/-- With only `Rename = [r]` configured, the per-metric body is the bare
rename on the metadata map. -/
theorem Metadata.transformMetric_rename (r : SourceDestination) (m : Metric) :
    Metadata.transformMetric { Rename := [r] } m =
      (⟨renameFold [r] m.Metadata, m.Data⟩, none) := rfl

/-- The rename rule on a singleton rule list. -/
theorem renameFold_single (r : SourceDestination) (md : SMap) :
    renameFold [r] md =
      match SMap.get md r.Source with
      | none => md
      | some v =>
        if r.Keep then md.set r.Destination v
        else (md.set r.Destination v).erase r.Source := by
  rw [renameFold]
  cases SMap.get md r.Source <;> rfl

/-- C7 counterexample: a `Rename` rule with an empty destination does not
default the destination to the source: on `Metadata = {s: 1}` the rule
`{source: "s", destination: "", keep: false}` moves the value to the
empty-string key and deletes `"s"`. -/
theorem C7_counterexample :
    (Metadata.Transform { Rename := [⟨"s", "", false⟩] }
        ⟨none, [⟨[("s", Value.int 1)], []⟩]⟩).2 =
      (⟨none, [⟨[("", Value.int 1)], []⟩]⟩, none) ∧
    SMap.get [("", Value.int 1)] "s" = none ∧
    SMap.get [("", Value.int 1)] "" = some (Value.int 1) :=
  ⟨rfl, rfl, rfl⟩

/-- C7 (amended): for every container and metric with `map[s]` present, a
Rename rule `{source: s, destination: "", keep: false}` does NOT default the
empty destination to the source name (that defaulting exists only in
`CopyFromData`): the value is reassigned to the empty-string key and, for
`s ≠ ""`, the key `s` is deleted. -/
theorem C7_rename_empty_destination_amended (s : String) (hs : s ≠ "") (v : Value)
    (c : Container) (i : Nat) (m : Metric)
    (hm : c.Metrics[i]? = some m) (hv : SMap.get m.Metadata s = some v) :
    (Metadata.Transform { Rename := [⟨s, "", false⟩] } c).2.2 = none ∧
    ∃ m', (Metadata.Transform { Rename := [⟨s, "", false⟩] } c).2.1.Metrics[i]? = some m' ∧
      SMap.get m'.Metadata "" = some v ∧ SMap.get m'.Metadata s = none := by
  have hpure : ∀ mm, (Metadata.transformMetric { Rename := [⟨s, "", false⟩] } mm).2 = none :=
    fun mm => Metadata.transformMetric_err_eq_none _ mm rfl rfl
  have hmap := Metadata.transformMetrics_eq_map _ hpure c.Metrics
  constructor
  · rw [Metadata.Transform_err, hmap]
  · refine ⟨⟨(m.Metadata.set "" v).erase s, m.Data⟩, ?_, ?_, ?_⟩
    · rw [Metadata.Transform_metrics, hmap]
      simp only [List.getElem?_map, hm, Option.map_some']
      rw [Metadata.transformMetric_rename]
      rw [renameFold_single]
      simp [hv]
    · rw [SMap.get_erase_ne _ s "" (Ne.symm hs), SMap.get_set_self]
    · rw [SMap.get_erase_self]

/-- C7 witness: at `s = "s"` with `Metadata = {s: 1}`, the rename with empty
destination succeeds. -/
theorem C7_rename_empty_destination_amended_witness :
    (Metadata.Transform { Rename := [⟨"s", "", false⟩] }
        ⟨none, [⟨[("s", Value.int 1)], []⟩]⟩).2.2 = none :=
  (C7_rename_empty_destination_amended "s" (by decide) (Value.int 1)
      ⟨none, [⟨[("s", Value.int 1)], []⟩]⟩ 0 ⟨[("s", Value.int 1)], []⟩ rfl rfl).1

/-- C9 counterexample: `Data.Transform` does mutate a configuration field of
the transformer instance: with `FlattenSeparator` unset it comes back as
`"__"`. -/
theorem C9_counterexample :
    ((Data.Transform ({} : Data) ⟨none, []⟩).1).FlattenSeparator = "__" ∧
    ({} : Data).FlattenSeparator = "" ∧ ("__" : String) ≠ "" :=
  ⟨rfl, rfl, by decide⟩

/-- C9 (amended): `Metadata.Transform` leaves every configuration field of
its transformer instance unchanged; `Data.Transform` leaves every field
unchanged except `FlattenSeparator`, which it sets to `"__"` when it was
empty. -/
theorem C9_config_readonly_amended (meta : Metadata) (d : Data) (c c' : Container) :
    (Metadata.Transform meta c).1 = meta ∧
    (Data.Transform d c').1 =
      (if d.FlattenSeparator = "" then { d with FlattenSeparator := "__" } else d) :=
  ⟨rfl, rfl⟩

/-! ### Copy/extract step lemmas -/

/-- With only `CopyFromData = [cpy]` configured, the per-metric body is the
bare copy step. -/
theorem Metadata.transformMetric_copy (cpy : SourceDestination) (m : Metric) :
    Metadata.transformMetric { CopyFromData := [cpy] } m =
      (⟨(copyFold [cpy] m.Metadata m.Data).1, (copyFold [cpy] m.Metadata m.Data).2⟩, none) := rfl

/-- The copy rule on a singleton rule list. -/
theorem copyFold_single (cpy : SourceDestination) (md dt : SMap) :
    copyFold [cpy] md dt =
      match SMap.get dt cpy.Source with
      | none => (md, dt)
      | some v =>
        (md.set (if cpy.Destination = "" then cpy.Source else cpy.Destination) v,
         if cpy.Keep then dt else dt.erase cpy.Source) := by
  rw [copyFold]
  cases SMap.get dt cpy.Source <;> rfl

/-- A singleton `ExtractFromData` rule is the same state transformation as a
`CopyFromData` rule with empty destination and `keep = false`. -/
theorem extractFold_single_eq_copyFold (s : String) (md dt : SMap) :
    extractFold [s] md dt = copyFold [⟨s, "", false⟩] md dt := by
  rw [extractFold, copyFold]
  cases SMap.get dt s <;> rfl

/-- A `CopyFromData` rule with empty destination is the same state
transformation as one whose destination is the source name. -/
theorem copyFold_empty_destination (s : String) (keep : Bool) (md dt : SMap) :
    copyFold [⟨s, "", keep⟩] md dt = copyFold [⟨s, s, keep⟩] md dt := by
  rw [copyFold_single, copyFold_single]
  cases SMap.get dt s with
  | none => rfl
  | some v => by_cases h : s = "" <;> simp [h]

/-! ### Congruence: transformers with pointwise-equal metric bodies act
identically on containers. -/

theorem Metadata.Transform_snd (meta : Metadata) (c : Container) :
    (Metadata.Transform meta c).2 =
      (⟨c.Template, (meta.transformMetrics c.Metrics).1⟩,
       (meta.transformMetrics c.Metrics).2) := rfl

theorem Metadata.transformMetrics_congr {A B : Metadata}
    (h : ∀ m, A.transformMetric m = B.transformMetric m) :
    ∀ ms, A.transformMetrics ms = B.transformMetrics ms := by
  intro ms
  induction ms with
  | nil => rfl
  | cons m rest ih =>
    rw [Metadata.transformMetrics_cons, Metadata.transformMetrics_cons, h m, ih]

theorem Metadata.Transform_snd_congr {A B : Metadata}
    (h : ∀ m, A.transformMetric m = B.transformMetric m) (c : Container) :
    (Metadata.Transform A c).2 = (Metadata.Transform B c).2 := by
  rw [Metadata.Transform_snd, Metadata.Transform_snd,
    Metadata.transformMetrics_congr h c.Metrics]

/-- C2: for every container and metric with `Data[s] = v`, `CopyFromData =
[{source: s, destination: d, keep: false}]` yields `Metadata[d] = v` with
`Data[s]` removed; with `keep: true` the source `Data[s] = v` is preserved;
and an empty destination behaves identically to `destination = s`. -/
theorem C2_copy_from_data (s d : String) (hd : d ≠ "") (v : Value)
    (c : Container) (i : Nat) (m : Metric)
    (hm : c.Metrics[i]? = some m) (hv : SMap.get m.Data s = some v) :
    (Metadata.Transform { CopyFromData := [⟨s, d, false⟩] } c).2.2 = none ∧
    (∃ m', (Metadata.Transform { CopyFromData := [⟨s, d, false⟩] } c).2.1.Metrics[i]? = some m' ∧
       SMap.get m'.Metadata d = some v ∧ SMap.get m'.Data s = none) ∧
    (∃ m', (Metadata.Transform { CopyFromData := [⟨s, d, true⟩] } c).2.1.Metrics[i]? = some m' ∧
       SMap.get m'.Metadata d = some v ∧ SMap.get m'.Data s = some v) ∧
    (∀ keep, (Metadata.Transform { CopyFromData := [⟨s, "", keep⟩] } c).2 =
             (Metadata.Transform { CopyFromData := [⟨s, s, keep⟩] } c).2) := by
  have hpure : ∀ (r : SourceDestination) mm,
      (Metadata.transformMetric { CopyFromData := [r] } mm).2 = none :=
    fun r mm => Metadata.transformMetric_err_eq_none _ mm rfl rfl
  refine ⟨?_, ?_, ?_, ?_⟩
  · rw [Metadata.Transform_err, Metadata.transformMetrics_eq_map _ (hpure _) c.Metrics]
  · refine ⟨⟨(m.Metadata.set d v), m.Data.erase s⟩, ?_, ?_, ?_⟩
    · rw [Metadata.Transform_metrics, Metadata.transformMetrics_eq_map _ (hpure _) c.Metrics]
      simp only [List.getElem?_map, hm, Option.map_some']
      rw [Metadata.transformMetric_copy, copyFold_single]
      simp [hv, hd]
    · rw [SMap.get_set_self]
    · rw [SMap.get_erase_self]
  · refine ⟨⟨(m.Metadata.set d v), m.Data⟩, ?_, ?_, ?_⟩
    · rw [Metadata.Transform_metrics, Metadata.transformMetrics_eq_map _ (hpure _) c.Metrics]
      simp only [List.getElem?_map, hm, Option.map_some']
      rw [Metadata.transformMetric_copy, copyFold_single]
      simp [hv, hd]
    · rw [SMap.get_set_self]
    · exact hv
  · intro keep
    refine Metadata.Transform_snd_congr (fun mm => ?_) c
    rw [Metadata.transformMetric_copy, Metadata.transformMetric_copy,
      copyFold_empty_destination]

/-- C2 witness: a concrete copy at `s = "s"`, `d = "d"`, `v = 7`. -/
theorem C2_copy_from_data_witness :
    (Metadata.Transform { CopyFromData := [⟨"s", "d", false⟩] }
        ⟨none, [⟨[], [("s", Value.int 7)]⟩]⟩).2.2 = none :=
  (C2_copy_from_data "s" "d" (by decide) (Value.int 7)
      ⟨none, [⟨[], [("s", Value.int 7)]⟩]⟩ 0 ⟨[], [("s", Value.int 7)]⟩ rfl rfl).1

/-- C8: for every container, `Metadata.Transform` with `ExtractFromData =
[s]` mutates the container identically to `Metadata.Transform` with
`CopyFromData = [{source: s, destination: "", keep: false}]`, whatever the
remaining configuration fields are. -/
theorem C8_extract_copy_equiv (s : String) (g : Metadata) (c : Container) :
    (Metadata.Transform { g with ExtractFromData := [s], CopyFromData := [] } c).2 =
    (Metadata.Transform { g with ExtractFromData := [], CopyFromData := [⟨s, "", false⟩] } c).2 := by
  refine Metadata.Transform_snd_congr (fun m => ?_) c
  simp only [Metadata.transformMetric]
  cases requireCheck "metadata" g.Require (setFold g.Set m.Metadata) with
  | some e => rfl
  | none =>
    rw [extractFold_single_eq_copyFold]
    rfl

/-- A `Rename` rule with `keep = false` moves the source binding to the
destination key. -/
theorem renameFold_move (s d : String) (md : SMap) :
    renameFold [⟨s, d, false⟩] md =
      match SMap.get md s with
      | none => md
      | some v => (md.set d v).erase s := by
  rw [renameFold]
  cases SMap.get md s <;> rfl

/-- The single-rule rename with `keep = false` is idempotent on a map. -/
theorem renameFold_move_idemp (s d : String) (md : SMap) :
    renameFold [⟨s, d, false⟩] (renameFold [⟨s, d, false⟩] md) =
      renameFold [⟨s, d, false⟩] md := by
  cases hg : SMap.get md s with
  | none =>
    have h1 : renameFold [⟨s, d, false⟩] md = md := by rw [renameFold_move, hg]
    rw [h1, h1]
  | some v =>
    have h1 : renameFold [⟨s, d, false⟩] md = (md.set d v).erase s := by
      rw [renameFold_move, hg]
    have h2 : renameFold [⟨s, d, false⟩] ((md.set d v).erase s) = (md.set d v).erase s := by
      rw [renameFold_move, SMap.get_erase_self]
    rw [h1, h2]

/-- With no `Require` and no `Ban` rules the Metadata transformer succeeds
and maps its per-metric body over the metrics. -/
theorem Metadata.Transform_pure (meta : Metadata)
    (h : ∀ m, (meta.transformMetric m).2 = none) (c : Container) :
    Metadata.Transform meta c =
      (meta, ⟨c.Template, c.Metrics.map (fun m => (meta.transformMetric m).1)⟩, none) := by
  simp only [Metadata.Transform, Metadata.transformMetrics_eq_map meta h c.Metrics]

/-- C10: for all distinct keys `s` and `d`, applying `Metadata.Transform`
with `Rename = [{source: s, destination: d, keep: false}]` twice yields the
same container state (and the same receiver and error) as applying it once. -/
theorem C10_rename_idempotent (s d : String) (hsd : d ≠ s) (c : Container) :
    Metadata.Transform { Rename := [⟨s, d, false⟩] }
        ((Metadata.Transform { Rename := [⟨s, d, false⟩] } c).2.1) =
      Metadata.Transform { Rename := [⟨s, d, false⟩] } c := by
  have hpure : ∀ mm, (Metadata.transformMetric { Rename := [⟨s, d, false⟩] } mm).2 = none :=
    fun mm => Metadata.transformMetric_err_eq_none _ mm rfl rfl
  rw [Metadata.Transform_pure _ hpure c]
  rw [Metadata.Transform_pure _ hpure]
  have hf : ∀ m : Metric,
      (Metadata.transformMetric { Rename := [⟨s, d, false⟩] }
          ((Metadata.transformMetric { Rename := [⟨s, d, false⟩] } m).1)).1 =
        (Metadata.transformMetric { Rename := [⟨s, d, false⟩] } m).1 := by
    intro m
    rw [Metadata.transformMetric_rename, Metadata.transformMetric_rename]
    exact congrArg (fun md => Metric.mk md m.Data) (renameFold_move_idemp s d m.Metadata)
  refine congrArg (fun ms =>
    (({ Rename := [⟨s, d, false⟩] } : Metadata),
     (⟨c.Template, ms⟩ : Container), (none : Option String))) ?_
  rw [List.map_map]
  exact List.map_congr_left (fun m _ => hf m)

/-- C10 witness: a concrete double rename at `s = "a"`, `d = "b"`. -/
theorem C10_rename_idempotent_witness :
    Metadata.Transform { Rename := [⟨"a", "b", false⟩] }
        ((Metadata.Transform { Rename := [⟨"a", "b", false⟩] }
            ⟨none, [⟨[("a", Value.int 3)], []⟩]⟩).2.1) =
      Metadata.Transform { Rename := [⟨"a", "b", false⟩] }
        ⟨none, [⟨[("a", Value.int 3)], []⟩]⟩ :=
  C10_rename_idempotent "a" "b" (by decide) ⟨none, [⟨[("a", Value.int 3)], []⟩]⟩

/-- Error component of `Data.Transform` in terms of the metric loop run
with the defaulted separator. -/
theorem Data.TransformErrEq (d : Data) (c : Container) :
    (Data.Transform d c).2.2 =
      ((if d.FlattenSeparator = "" then { d with FlattenSeparator := "__" } else d).transformMetrics
        c.Metrics).2 := rfl

/-- Error component of `Data.Transform` through the `defaulted` receiver. -/
theorem Data.TransformErrDefaulted (d : Data) (c : Container) :
    (Data.Transform d c).2.2 = (d.defaulted.transformMetrics c.Metrics).2 := rfl

theorem Data.defaulted_Require (d : Data) : d.defaulted.Require = d.Require := by
  unfold Data.defaulted
  by_cases h : d.FlattenSeparator = "" <;> simp [h]

theorem Data.defaulted_Ban (d : Data) : d.defaulted.Ban = d.Ban := by
  unfold Data.defaulted
  by_cases h : d.FlattenSeparator = "" <;> simp [h]

/-- A `Require` error names a declared rule key that is absent or null on
the checked map: a violated precondition. -/
theorem requireCheck_eq_some (what : String) (rules : List String) (m : SMap) (e : String)
    (h : requireCheck what rules m = some e) : ∃ k ∈ rules, m.isNil k = true := by
  induction rules with
  | nil => simp [requireCheck] at h
  | cons k rest ih =>
    rw [requireCheck] at h
    by_cases hk : m.isNil k
    · exact ⟨k, List.mem_cons_self k rest, hk⟩
    · rw [if_neg hk] at h
      obtain ⟨k', hk', hv⟩ := ih h
      exact ⟨k', List.mem_cons_of_mem _ hk', hv⟩

/-- A `Ban` error names a declared rule key that is present with a non-null
value on the checked map: a violated precondition. -/
theorem banCheck_eq_some (what : String) (rules : List String) (m : SMap) (e : String)
    (h : banCheck what rules m = some e) : ∃ k ∈ rules, m.isNil k = false := by
  induction rules with
  | nil => simp [banCheck] at h
  | cons k rest ih =>
    rw [banCheck] at h
    by_cases hk : m.isNil k
    · rw [if_pos hk] at h
      obtain ⟨k', hk', hv⟩ := ih h
      exact ⟨k', List.mem_cons_of_mem _ hk', hv⟩
    · exact ⟨k, List.mem_cons_self k rest, by simpa using hk⟩

/-- The error component of the Metadata per-metric body is exactly the
outcome of its `Require` check, then its `Ban` check. -/
theorem Metadata.transformMetricSndEq (meta : Metadata) (m : Metric) :
    (meta.transformMetric m).2 =
      match requireCheck "metadata" meta.Require (meta.mdAfterSet m) with
      | some e => some e
      | none =>
        match banCheck "metadata" meta.Ban (meta.mdAfterRemove m) with
        | some e => some e
        | none => none := by
  unfold Metadata.mdAfterRemove Metadata.mdAfterSet
  simp only [Metadata.transformMetric]
  cases requireCheck "metadata" meta.Require (setFold meta.Set m.Metadata) with
  | some e => rfl
  | none =>
    dsimp only
    cases banCheck "metadata" meta.Ban
        (removeFold meta.Remove
          (copyFold meta.CopyFromData
            (extractFold meta.ExtractFromData (setFold meta.Set m.Metadata) m.Data).1
            (extractFold meta.ExtractFromData (setFold meta.Set m.Metadata) m.Data).2).1) with
    | some e => rfl
    | none => rfl

/-- An error from the Metadata per-metric body comes from its `Require`
check or from its `Ban` check. -/
theorem Metadata.transformMetric_err_src (meta : Metadata) (m : Metric) (e : String)
    (h : (meta.transformMetric m).2 = some e) :
    requireCheck "metadata" meta.Require (meta.mdAfterSet m) = some e ∨
    banCheck "metadata" meta.Ban (meta.mdAfterRemove m) = some e := by
  rw [Metadata.transformMetricSndEq] at h
  revert h
  cases requireCheck "metadata" meta.Require (meta.mdAfterSet m) with
  | some e1 => intro h; exact Or.inl h
  | none =>
    cases banCheck "metadata" meta.Ban (meta.mdAfterRemove m) with
    | some e2 => intro h; exact Or.inr h
    | none => intro h; exact absurd h (by simp)

/-- An error from the Metadata metric loop is produced on some metric of
the list. -/
theorem Metadata.transformMetrics_err_mem (meta : Metadata) (ms : List Metric) (e : String)
    (h : (meta.transformMetrics ms).2 = some e) :
    ∃ m ∈ ms, (meta.transformMetric m).2 = some e := by
  induction ms with
  | nil => simp [Metadata.transformMetrics] at h
  | cons m rest ih =>
    rw [Metadata.transformMetrics_cons] at h
    revert h
    cases hm : meta.transformMetric m with
    | mk m' e' =>
      cases e' with
      | some e1 =>
        intro h
        dsimp only at h
        exact ⟨m, List.mem_cons_self m rest, by rw [hm]; exact h⟩
      | none =>
        intro h
        dsimp only at h
        obtain ⟨mm, hmm, he⟩ := ih h
        exact ⟨mm, List.mem_cons_of_mem _ hmm, he⟩

/-- Unfolding of the Data metric loop on a cons cell. -/
theorem Data.transformMetricsConsEq (data : Data) (m : Metric) (rest : List Metric) :
    data.transformMetrics (m :: rest) =
      match data.transformMetric m with
      | (m', some e) => (m' :: rest, some e)
      | (m', none) =>
        (m' :: (data.transformMetrics rest).1, (data.transformMetrics rest).2) := by
  rw [Data.transformMetrics]

/-- The error component of the Data per-metric body is exactly the outcome
of its `Require` check, then its `Ban` check. -/
theorem Data.transformMetricSndSplit (d : Data) (m : Metric) :
    (d.transformMetric m).2 =
      match requireCheck "data" d.Require (d.dtAfterFlatten m) with
      | some e => some e
      | none =>
        match banCheck "data" d.Ban (d.dtAfterRemove m) with
        | some e => some e
        | none => none := by
  unfold Data.dtAfterRemove Data.dtAfterFlatten
  simp only [Data.transformMetric]
  cases requireCheck "data" d.Require
      (flattenFold d.Flatten d.FlattenSeparator d.KeepOriginal (setFold d.Set m.Data)) with
  | some e => rfl
  | none =>
    dsimp only
    cases banCheck "data" d.Ban
        (removeFold d.Remove
          (flattenFold d.Flatten d.FlattenSeparator d.KeepOriginal (setFold d.Set m.Data))) with
    | some e => rfl
    | none => rfl

/-- An error from the Data per-metric body comes from its `Require` check
or from its `Ban` check. -/
theorem Data.transformMetricErrSrc (d : Data) (m : Metric) (e : String)
    (h : (d.transformMetric m).2 = some e) :
    requireCheck "data" d.Require (d.dtAfterFlatten m) = some e ∨
    banCheck "data" d.Ban (d.dtAfterRemove m) = some e := by
  rw [Data.transformMetricSndSplit] at h
  revert h
  cases requireCheck "data" d.Require (d.dtAfterFlatten m) with
  | some e1 => intro h; exact Or.inl h
  | none =>
    cases banCheck "data" d.Ban (d.dtAfterRemove m) with
    | some e2 => intro h; exact Or.inr h
    | none => intro h; exact absurd h (by simp)

/-- An error from the Data metric loop is produced on some metric of the
list. -/
theorem Data.transformMetricsErrMem (data : Data) (ms : List Metric) (e : String)
    (h : (data.transformMetrics ms).2 = some e) :
    ∃ m ∈ ms, (data.transformMetric m).2 = some e := by
  induction ms with
  | nil => simp [Data.transformMetrics] at h
  | cons m rest ih =>
    rw [Data.transformMetricsConsEq] at h
    revert h
    cases hm : data.transformMetric m with
    | mk m' e' =>
      cases e' with
      | some e1 =>
        intro h
        dsimp only at h
        exact ⟨m, List.mem_cons_self m rest, by rw [hm]; exact h⟩
      | none =>
        intro h
        dsimp only at h
        obtain ⟨mm, hmm, he⟩ := ih h
        exact ⟨mm, List.mem_cons_of_mem _ hmm, he⟩

/-- C6: `Metadata.Transform` and `Data.Transform` return a non-nil error
only when a declared precondition is violated: every returned error exhibits
a metric on which a declared `Require` key is absent-or-null at its check
point, or a declared `Ban` key is present non-null at its check point.  In
particular a failure inside the Flatten step never causes Transform to
return an error — by contraposition, any configuration whose declared
Require/Ban rules are all satisfied (including none declared) succeeds,
whatever `Flatten` does. -/
theorem C6_error_only_preconditions (meta : Metadata) (data : Data) (c c' : Container) :
    (∀ e, (Metadata.Transform meta c).2.2 = some e →
      ∃ m ∈ c.Metrics,
        (∃ k ∈ meta.Require, SMap.isNil (meta.mdAfterSet m) k = true) ∨
        (∃ k ∈ meta.Ban, SMap.isNil (meta.mdAfterRemove m) k = false)) ∧
    (∀ e, (Data.Transform data c').2.2 = some e →
      ∃ m ∈ c'.Metrics,
        (∃ k ∈ data.Require, SMap.isNil (data.defaulted.dtAfterFlatten m) k = true) ∨
        (∃ k ∈ data.Ban, SMap.isNil (data.defaulted.dtAfterRemove m) k = false)) := by
  constructor
  · intro e he
    rw [Metadata.Transform_err] at he
    obtain ⟨m, hmem, hm⟩ := Metadata.transformMetrics_err_mem meta c.Metrics e he
    refine ⟨m, hmem, ?_⟩
    rcases Metadata.transformMetric_err_src meta m e hm with h | h
    · exact Or.inl (requireCheck_eq_some "metadata" meta.Require _ e h)
    · exact Or.inr (banCheck_eq_some "metadata" meta.Ban _ e h)
  · intro e he
    rw [Data.TransformErrDefaulted] at he
    obtain ⟨m, hmem, hm⟩ := Data.transformMetricsErrMem data.defaulted c'.Metrics e he
    refine ⟨m, hmem, ?_⟩
    rcases Data.transformMetricErrSrc data.defaulted m e hm with h | h
    · have hx := requireCheck_eq_some "data" data.defaulted.Require _ e h
      rw [Data.defaulted_Require] at hx
      exact Or.inl hx
    · have hx := banCheck_eq_some "data" data.defaulted.Ban _ e h
      rw [Data.defaulted_Ban] at hx
      exact Or.inr hx

/-- C6 witness: a `Require` error on empty metadata and a `Ban` error on
`Data = {b: 2}` — both alongside a Flatten path that fails to resolve —
each exhibit their violated precondition. -/
theorem C6_error_only_preconditions_witness :
    (∃ m ∈ (⟨none, [⟨[], []⟩]⟩ : Container).Metrics,
      (∃ k ∈ ({ Require := ["k"], Flatten := [["nope"]] } : Metadata).Require,
        SMap.isNil (Metadata.mdAfterSet { Require := ["k"], Flatten := [["nope"]] } m) k = true) ∨
      (∃ k ∈ ({ Require := ["k"], Flatten := [["nope"]] } : Metadata).Ban,
        SMap.isNil (Metadata.mdAfterRemove { Require := ["k"], Flatten := [["nope"]] } m) k = false)) ∧
    (∃ m ∈ (⟨none, [⟨[], [("b", Value.int 2)]⟩]⟩ : Container).Metrics,
      (∃ k ∈ ({ Ban := ["b"], Flatten := [["nope"]] } : Data).Require,
        SMap.isNil (Data.dtAfterFlatten (Data.defaulted { Ban := ["b"], Flatten := [["nope"]] }) m) k = true) ∨
      (∃ k ∈ ({ Ban := ["b"], Flatten := [["nope"]] } : Data).Ban,
        SMap.isNil (Data.dtAfterRemove (Data.defaulted { Ban := ["b"], Flatten := [["nope"]] }) m) k = false)) :=
  ⟨(C6_error_only_preconditions { Require := ["k"], Flatten := [["nope"]] }
      { Ban := ["b"], Flatten := [["nope"]] }
      ⟨none, [⟨[], []⟩]⟩ ⟨none, [⟨[], [("b", Value.int 2)]⟩]⟩).1
      "missing required metadata field k" rfl,
   (C6_error_only_preconditions { Require := ["k"], Flatten := [["nope"]] }
      { Ban := ["b"], Flatten := [["nope"]] }
      ⟨none, [⟨[], []⟩]⟩ ⟨none, [⟨[], [("b", Value.int 2)]⟩]⟩).2
      "banned data field `b' present" rfl⟩

end Skogul
